import Mathlib

/-!
Shallow embedding of the intent-orchestration engine of
`src/orchestrator/orchestrator.py` (class `OrchestratorAgent` and the
module-level downstream-send helpers).

Timestamps (Python `time.time()` floats) are modelled as rationals `ℚ`.
Python strings are modelled as Lean `String`s restricted to ASCII, with
`str.lower()`, `str.strip()`, `str.split()` and the substring operator
`in` re-implemented below over `List Char` so that every definition
reduces by computation.
-/

/-- ASCII whitespace, matching what Python's `str.split()` / `str.strip()`
split and strip on for the ASCII inputs of this system. -/
def isSpaceChar (c : Char) : Bool :=
  c == ' ' || c == '\t' || c == '\n' || c == '\r' || c == '\x0b' || c == '\x0c'

/-- ASCII lowercase of one character, as Python `str.lower()` acts on ASCII. -/
def lowerChar (c : Char) : Char :=
  if 'A' ≤ c ∧ c ≤ 'Z' then Char.ofNat (c.toNat + 32) else c

/-- Python `s.lower()` (ASCII fragment). -/
def lowerStr (s : String) : String := ⟨s.data.map lowerChar⟩

/-- Python `s.strip()`: remove leading and trailing whitespace. -/
def pyStrip (s : String) : String :=
  ⟨((s.data.dropWhile isSpaceChar).reverse.dropWhile isSpaceChar).reverse⟩

/-- Helper for `pySplit`: accumulate the current word (reversed) while
scanning the character list. -/
def wordsAux : List Char → List Char → List String
  | [], acc => if acc.isEmpty then [] else [⟨acc.reverse⟩]
  | c :: rest, acc =>
    if isSpaceChar c then
      if acc.isEmpty then wordsAux rest [] else ⟨acc.reverse⟩ :: wordsAux rest []
    else wordsAux rest (c :: acc)

/-- Python `s.split()` (no argument): split on runs of whitespace,
discarding empty tokens. -/
def pySplit (s : String) : List String := wordsAux s.data []

/-- `isPrefixOfL n h` : the character list `n` is a prefix of `h`. -/
def isPrefixOfL : List Char → List Char → Bool
  | [], _ => true
  | _ :: _, [] => false
  | a :: as, b :: bs => a == b && isPrefixOfL as bs

/-- `hasSubstrL n h` : `n` occurs as a contiguous substring of `h`. -/
def hasSubstrL (needle : List Char) : List Char → Bool
  | [] => needle.isEmpty
  | c :: t => isPrefixOfL needle (c :: t) || hasSubstrL needle t

/-- Python's substring test `needle in hay` on strings. -/
def strIn (needle hay : String) : Bool := hasSubstrL needle.data hay.data

/-- One rule of the rule table: `{'trigger': …, 'action': …, 'params': …}`. -/
structure Rule where
  trigger : String
  action : String
  params : List (String × String)
  deriving DecidableEq

/-- `OrchestratorAgent._initialize_rules`, as a lookup function mirroring
`self.rules.get(source, [])`. -/
def initializeRules (source : String) : List Rule :=
  if source = "audio_stt" then
    [⟨"open presentation", "OPEN_PRESENTATION", []⟩,
     ⟨"next", "NEXT_SLIDE", []⟩,
     ⟨"previous", "PREVIOUS_SLIDE", []⟩]
  else if source = "vision_vlm" then
    [⟨"cardboard", "ZOOM_ON_OBJECT", [("target", "cardboard")]⟩,
     ⟨"person", "ZOOM_ON_OBJECT", [("target", "person")]⟩,
     ⟨"bottle", "ZOOM_ON_OBJECT", [("target", "bottle")]⟩]
  else if source = "gesture" then
    [⟨"next", "NEXT_SLIDE", []⟩,
     ⟨"previous", "PREVIOUS_SLIDE", []⟩]
  else []

/-- Mutable state of one `OrchestratorAgent`: the zipped pair of the parallel
deques `phrase_buffer` / `phrase_timestamps` (front = oldest), and the
cooldown registry `triggered_phrases` (an association list, newest entry
first, so that lookup returns the most recent write — Python dict
assignment overwrites). -/
structure OrchState where
  buffer : List (String × ℚ)
  triggered : List (String × ℚ)
  deriving DecidableEq

/-- `self.phrase_window = 3.0` seconds. -/
def phraseWindow : ℚ := 3

/-- Default `cooldown` argument of `_was_recently_triggered`: 2.0 seconds. -/
def cooldownDefault : ℚ := 2

/-- Python dict read `m[a]` / `a in m` for the cooldown registry
(first entry wins = most recent write). -/
def lookupQ : List (String × ℚ) → String → Option ℚ
  | [], _ => none
  | (k, v) :: rest, a => if k = a then some v else lookupQ rest a

/-- `OrchestratorAgent._was_recently_triggered(action, cooldown)` at time
`now`: true iff the action is in the registry and `now - t < cooldown`. -/
def wasRecentlyTriggered (m : List (String × ℚ)) (a : String) (now cooldown : ℚ) : Bool :=
  match lookupQ m a with
  | some t => decide (now - t < cooldown)
  | none => false

/-- `OrchestratorAgent._mark_triggered(action)` at time `now`:
`self.triggered_phrases[action] = time.time()`. -/
def markTriggered (m : List (String × ℚ)) (a : String) (now : ℚ) : List (String × ℚ) :=
  (a, now) :: m

/-- `deque(maxlen=10).append(e)`: append at the back, evicting from the
front when the capacity of 10 is exceeded. -/
def pushCapped (buf : List (String × ℚ)) (e : String × ℚ) : List (String × ℚ) :=
  (buf ++ [e]).drop ((buf ++ [e]).length - 10)

/-- `OrchestratorAgent._clean_old_phrases`: pop entries from the front while
the front entry is older than `phrase_window` seconds. -/
def cleanOld (now : ℚ) : List (String × ℚ) → List (String × ℚ)
  | [] => []
  | e :: rest => if now - e.2 > phraseWindow then cleanOld now rest else e :: rest

/-- `' '.join(words)`. -/
def joinSpace : List String → String
  | [] => ""
  | [w] => w
  | w :: x :: rest => w ++ " " ++ joinSpace (x :: rest)

/-- `OrchestratorAgent._get_recent_phrase`: trim by age (mutating the
buffer), then join the remaining words with single spaces and lowercase.
Returns the trimmed buffer together with the phrase. -/
def getRecentPhrase (buf : List (String × ℚ)) (now : ℚ) : List (String × ℚ) × String :=
  (cleanOld now buf, lowerStr (joinSpace ((cleanOld now buf).map Prod.fst)))

/-- The phrase-ingestion half of `OrchestratorAgent.apply_rules` (lines
134–150): for source `"audio_stt"`, split the (already stripped) content
into lowercase words, append each to the phrase buffer with the current
timestamp, and read back the accumulated recent phrase (which trims the
buffer by age); for every other source the recent phrase is the content
lowercased, and the state is untouched. -/
def ingest (st : OrchState) (now : ℚ) (source content : String) : OrchState × String :=
  if source = "audio_stt" then
    let buf1 := (pySplit (lowerStr content)).foldl (fun b w => pushCapped b (w, now)) st.buffer
    let res := getRecentPhrase buf1 now
    (⟨res.1, st.triggered⟩, res.2)
  else (st, lowerStr content)

/-- The rule-matching loop of `OrchestratorAgent.apply_rules` (lines
156–170): walk the source's rules in table order; a rule whose lowercased
trigger occurs in the recent phrase and whose action is not
cooldown-suppressed is dispatched (its action is marked in the registry
synchronously, and `(action, params)` is appended to the created dispatch
tasks); the loop never breaks early. Returns the updated registry and the
list of dispatches in creation order. -/
def ruleLoop (now : ℚ) (phrase : String) :
    List Rule → List (String × ℚ) → List (String × ℚ) × List (String × List (String × String))
  | [], trig => (trig, [])
  | r :: rest, trig =>
    if strIn (lowerStr r.trigger) phrase then
      if wasRecentlyTriggered trig r.action now cooldownDefault then
        ruleLoop now phrase rest trig
      else
        let res := ruleLoop now phrase rest (markTriggered trig r.action now)
        (res.1, (r.action, r.params) :: res.2)
    else ruleLoop now phrase rest trig

/-- `OrchestratorAgent.apply_rules(data)` at time `now`, for a parsed
message with fields `source` and `rawContent`: strip the content, return
unchanged on an empty source or empty stripped content, otherwise ingest
the content into the phrase state and run the rule loop. Returns the new
state and the dispatch tasks created for this event. -/
def applyRules (rules : String → List Rule) (st : OrchState) (now : ℚ)
    (source rawContent : String) : OrchState × List (String × List (String × String)) :=
  let content := pyStrip rawContent
  if source = "" ∨ content = "" then (st, [])
  else
    let r1 := ingest st now source content
    let res := ruleLoop now r1.2 (rules source) r1.1.triggered
    (⟨r1.1.buffer, res.1⟩, res.2)

/-- A sequence of events `(arrival time, source, content)` processed in
order by `apply_rules`, collecting every created dispatch task tagged with
the time of the event that created it. -/
def runEvents (rules : String → List Rule) :
    OrchState → List (ℚ × String × String) → OrchState × List (ℚ × String × List (String × String))
  | st, [] => (st, [])
  | st, (t, s, c) :: rest =>
    let r1 := applyRules rules st t s c
    let r2 := runEvents rules r1.1 rest
    (r2.1, r1.2.map (fun d => (t, d.1, d.2)) ++ r2.2)

/-- The action filter of `OrchestratorAgent._delegate_action_async`
(line 189): the list of actions forwarded to the PDF server. -/
def slideActions : List String :=
  ["OPEN_PRESENTATION", "NEXT_SLIDE", "PREVIOUS_SLIDE", "GO_TO_SLIDE"]

/-- `OrchestratorAgent._delegate_action_async(source, action, params, …)`,
reduced to its downstream effect: the payload handed to
`send_to_pdf_server`, when the action passes the slide-action filter, and
`none` (log only, no downstream send) otherwise. -/
def delegateAction (action : String) (params : List (String × String)) :
    Option (String × List (String × String)) :=
  if slideActions.contains action then some (action, params) else none

/-- Result of one call to `send_to_pdf_server`: the value of the global
`PDF_SERVER_CONNECTION` afterwards, whether the payload was sent, how many
times `websockets.connect` was invoked during the call, and whether a
failure message was logged. -/
structure SendOutcome where
  conn : Option Bool
  sent : Bool
  connectAttempts : Nat
  errorLogged : Bool
  deriving DecidableEq

/-- `send_to_pdf_server(action, params)`. The global
`PDF_SERVER_CONNECTION` is modelled as `Option Bool`: `none` when no
connection object exists (Disconnected), `some ok` for a live connection
whose `send` raises iff `ok = false`. The function body only does
something when a connection exists: on a send exception it logs and resets
the global to `None`. It contains no call to `websockets.connect`
(connecting happens once, in `connect_to_pdf_server` at startup). -/
def sendToPdfServer : Option Bool → SendOutcome
  | none => ⟨none, false, 0, false⟩
  | some ok => if ok then ⟨some true, true, 0, false⟩ else ⟨none, false, 0, true⟩

/-- An inbound websocket message as seen by `parse_message`: either a
string that is not valid JSON, or a JSON object with optional `source` and
`content` string fields. -/
inductive InMsg where
  | badJson
  | obj (source : Option String) (content : Option String)
  deriving DecidableEq

/-- `OrchestratorAgent.parse_message`: `None` on a JSON decode error or
when `source` or `content` is missing, otherwise the two fields. -/
def parseMessage : InMsg → Option (String × String)
  | .badJson => none
  | .obj os oc =>
    match os, oc with
    | some s, some c => some (s, c)
    | _, _ => none

/-- One iteration of the `async for` loop of `connection_handler`: parse
the message and, only when parsing succeeds, apply the rules. A rejected
message leaves the state untouched and creates no dispatch. -/
def handleMessage (rules : String → List Rule) (st : OrchState) (now : ℚ) (m : InMsg) :
    OrchState × List (String × List (String × String)) :=
  match parseMessage m with
  | none => (st, [])
  | some sc => applyRules rules st now sc.1 sc.2

/-- The `connection_handler` receive loop over a sequence of timed inbound
messages, collecting the timed dispatches. The loop keeps the connection
open and continues with the next message whether or not a message was
rejected. -/
def handleRun (rules : String → List Rule) :
    OrchState → List (ℚ × InMsg) → OrchState × List (ℚ × String × List (String × String))
  | st, [] => (st, [])
  | st, (t, m) :: rest =>
    let r1 := handleMessage rules st t m
    let r2 := handleRun rules r1.1 rest
    (r2.1, r1.2.map (fun d => (t, d.1, d.2)) ++ r2.2)

/-! ### Helper lemmas about the cooldown registry -/

theorem lookupQ_mark (trig : List (String × ℚ)) (a b : String) (now : ℚ) :
    lookupQ (markTriggered trig b now) a = if b = a then some now else lookupQ trig a := rfl

theorem wasRecently_mark (trig : List (String × ℚ)) (a b : String) (now : ℚ) :
    wasRecentlyTriggered (markTriggered trig b now) a now cooldownDefault
      = (decide (b = a) || wasRecentlyTriggered trig a now cooldownDefault) := by
  unfold wasRecentlyTriggered
  rw [lookupQ_mark]
  by_cases h : b = a
  · simp only [h, if_pos rfl, decide_eq_true_eq]
    norm_num [cooldownDefault]
  · simp [h]

theorem wasRecently_mark_self (trig : List (String × ℚ)) (a : String) (now : ℚ) :
    wasRecentlyTriggered (markTriggered trig a now) a now cooldownDefault = true := by
  rw [wasRecently_mark]
  simp

/-! ### Helper lemmas about the rule loop -/

theorem ruleLoop_cons_nomatch (now : ℚ) (phrase : String) (r : Rule) (rest : List Rule)
    (trig : List (String × ℚ)) (hm : strIn (lowerStr r.trigger) phrase = false) :
    ruleLoop now phrase (r :: rest) trig = ruleLoop now phrase rest trig := by
  simp [ruleLoop, hm]

theorem ruleLoop_cons_supp (now : ℚ) (phrase : String) (r : Rule) (rest : List Rule)
    (trig : List (String × ℚ)) (hm : strIn (lowerStr r.trigger) phrase = true)
    (hs : wasRecentlyTriggered trig r.action now cooldownDefault = true) :
    ruleLoop now phrase (r :: rest) trig = ruleLoop now phrase rest trig := by
  simp [ruleLoop, hm, hs]

theorem ruleLoop_cons_fire (now : ℚ) (phrase : String) (r : Rule) (rest : List Rule)
    (trig : List (String × ℚ)) (hm : strIn (lowerStr r.trigger) phrase = true)
    (hs : wasRecentlyTriggered trig r.action now cooldownDefault = false) :
    ruleLoop now phrase (r :: rest) trig
      = ((ruleLoop now phrase rest (markTriggered trig r.action now)).1,
         (r.action, r.params) :: (ruleLoop now phrase rest (markTriggered trig r.action now)).2) := by
  simp [ruleLoop, hm, hs]

theorem ruleLoop_lookup (now : ℚ) (phrase : String) :
    ∀ (rs : List Rule) (trig : List (String × ℚ)) (a : String),
      lookupQ (ruleLoop now phrase rs trig).1 a
        = if a ∈ (ruleLoop now phrase rs trig).2.map Prod.fst then some now
          else lookupQ trig a := by
  intro rs
  induction rs with
  | nil => intro trig a; simp [ruleLoop]
  | cons r rest ih =>
    intro trig a
    by_cases hm : strIn (lowerStr r.trigger) phrase = true
    · by_cases hs : wasRecentlyTriggered trig r.action now cooldownDefault = true
      · rw [ruleLoop_cons_supp now phrase r rest trig hm hs]
        exact ih trig a
      · rw [Bool.not_eq_true] at hs
        rw [ruleLoop_cons_fire now phrase r rest trig hm hs]
        simp only [List.map_cons, List.mem_cons]
        rw [ih]
        by_cases ha : a = r.action
        · simp [ha, lookupQ_mark]
        · by_cases hd : a ∈ (ruleLoop now phrase rest (markTriggered trig r.action now)).2.map Prod.fst
          · simp [hd, ha]
          · simp [hd, ha, lookupQ_mark, Ne.symm ha]
    · rw [Bool.not_eq_true] at hm
      rw [ruleLoop_cons_nomatch now phrase r rest trig hm]
      exact ih trig a

theorem ruleLoop_mem (now : ℚ) (phrase : String) :
    ∀ (rs : List Rule) (trig : List (String × ℚ)) (a : String),
      a ∈ (ruleLoop now phrase rs trig).2.map Prod.fst
        ↔ ((∃ r ∈ rs, r.action = a ∧ strIn (lowerStr r.trigger) phrase = true)
            ∧ wasRecentlyTriggered trig a now cooldownDefault = false) := by
  intro rs
  induction rs with
  | nil => intro trig a; simp [ruleLoop]
  | cons r rest ih =>
    intro trig a
    by_cases hm : strIn (lowerStr r.trigger) phrase = true
    · by_cases hs : wasRecentlyTriggered trig r.action now cooldownDefault = true
      · rw [ruleLoop_cons_supp _ _ _ _ _ hm hs, ih]
        constructor
        · rintro ⟨⟨r', hr', h1, h2⟩, h3⟩
          exact ⟨⟨r', List.mem_cons_of_mem _ hr', h1, h2⟩, h3⟩
        · rintro ⟨⟨r', hr', h1, h2⟩, h3⟩
          rcases List.mem_cons.mp hr' with h | h
          · subst h
            rw [h1] at hs
            rw [hs] at h3
            simp at h3
          · exact ⟨⟨r', h, h1, h2⟩, h3⟩
      · rw [Bool.not_eq_true] at hs
        rw [ruleLoop_cons_fire _ _ _ _ _ hm hs]
        simp only [List.map_cons, List.mem_cons]
        rw [ih, wasRecently_mark]
        constructor
        · rintro (ha | ⟨⟨r', hr', h1, h2⟩, h3⟩)
          · refine ⟨⟨r, Or.inl rfl, ha.symm, hm⟩, ?_⟩
            rw [← ha] at hs
            exact hs
          · rw [Bool.or_eq_false_iff] at h3
            exact ⟨⟨r', Or.inr hr', h1, h2⟩, h3.2⟩
        · rintro ⟨⟨r', hr', h1, h2⟩, h3⟩
          rcases hr' with h | h
          · subst h
            exact Or.inl h1.symm
          · by_cases ha : a = r.action
            · exact Or.inl ha
            · refine Or.inr ⟨⟨r', h, h1, h2⟩, ?_⟩
              rw [Bool.or_eq_false_iff]
              refine ⟨?_, h3⟩
              simp [Ne.symm ha]
    · rw [Bool.not_eq_true] at hm
      rw [ruleLoop_cons_nomatch _ _ _ _ _ hm, ih]
      constructor
      · rintro ⟨⟨r', hr', h1, h2⟩, h3⟩
        exact ⟨⟨r', List.mem_cons_of_mem _ hr', h1, h2⟩, h3⟩
      · rintro ⟨⟨r', hr', h1, h2⟩, h3⟩
        rcases List.mem_cons.mp hr' with h | h
        · subst h
          rw [hm] at h2
          simp at h2
        · exact ⟨⟨r', h, h1, h2⟩, h3⟩

theorem ruleLoop_nodup (now : ℚ) (phrase : String) :
    ∀ (rs : List Rule) (trig : List (String × ℚ)),
      ((ruleLoop now phrase rs trig).2.map Prod.fst).Nodup := by
  intro rs
  induction rs with
  | nil => intro trig; simp [ruleLoop]
  | cons r rest ih =>
    intro trig
    by_cases hm : strIn (lowerStr r.trigger) phrase = true
    · by_cases hs : wasRecentlyTriggered trig r.action now cooldownDefault = true
      · rw [ruleLoop_cons_supp _ _ _ _ _ hm hs]
        exact ih trig
      · rw [Bool.not_eq_true] at hs
        rw [ruleLoop_cons_fire _ _ _ _ _ hm hs]
        simp only [List.map_cons, List.nodup_cons]
        refine ⟨?_, ih _⟩
        intro hmem
        rw [ruleLoop_mem] at hmem
        have h3 := hmem.2
        rw [wasRecently_mark] at h3
        simp at h3
    · rw [Bool.not_eq_true] at hm
      rw [ruleLoop_cons_nomatch _ _ _ _ _ hm]
      exact ih trig

/-! ### Helper lemmas about `ingest` and `applyRules` -/

theorem ingest_triggered (st : OrchState) (now : ℚ) (source content : String) :
    (ingest st now source content).1.triggered = st.triggered := by
  by_cases h : source = "audio_stt" <;> simp [ingest, h]

theorem applyRules_empty (rules : String → List Rule) (st : OrchState) (now : ℚ)
    (source rawContent : String) (h : source = "" ∨ pyStrip rawContent = "") :
    applyRules rules st now source rawContent = (st, []) := by
  simp [applyRules, h]

theorem applyRules_nonempty (rules : String → List Rule) (st : OrchState) (now : ℚ)
    (source rawContent : String) (h : ¬ (source = "" ∨ pyStrip rawContent = "")) :
    applyRules rules st now source rawContent
      = (⟨(ingest st now source (pyStrip rawContent)).1.buffer,
          (ruleLoop now (ingest st now source (pyStrip rawContent)).2 (rules source)
            (ingest st now source (pyStrip rawContent)).1.triggered).1⟩,
         (ruleLoop now (ingest st now source (pyStrip rawContent)).2 (rules source)
           (ingest st now source (pyStrip rawContent)).1.triggered).2) := by
  simp [applyRules, h]

theorem applyRules_lookup (rules : String → List Rule) (st : OrchState) (now : ℚ)
    (source rawContent : String) (a : String) :
    lookupQ (applyRules rules st now source rawContent).1.triggered a
      = if a ∈ (applyRules rules st now source rawContent).2.map Prod.fst then some now
        else lookupQ st.triggered a := by
  by_cases h : source = "" ∨ pyStrip rawContent = ""
  · rw [applyRules_empty rules st now source rawContent h]
    simp
  · rw [applyRules_nonempty rules st now source rawContent h]
    dsimp only
    rw [ruleLoop_lookup, ingest_triggered]

theorem applyRules_mem (rules : String → List Rule) (st : OrchState) (now : ℚ)
    (source rawContent : String) (a : String)
    (hmem : a ∈ (applyRules rules st now source rawContent).2.map Prod.fst) :
    wasRecentlyTriggered st.triggered a now cooldownDefault = false := by
  by_cases h : source = "" ∨ pyStrip rawContent = ""
  · rw [applyRules_empty rules st now source rawContent h] at hmem
    simp at hmem
  · rw [applyRules_nonempty rules st now source rawContent h] at hmem
    dsimp only at hmem
    rw [ruleLoop_mem, ingest_triggered] at hmem
    exact hmem.2

theorem applyRules_nodup (rules : String → List Rule) (st : OrchState) (now : ℚ)
    (source rawContent : String) :
    ((applyRules rules st now source rawContent).2.map Prod.fst).Nodup := by
  by_cases h : source = "" ∨ pyStrip rawContent = ""
  · rw [applyRules_empty rules st now source rawContent h]
    simp
  · rw [applyRules_nonempty rules st now source rawContent h]
    dsimp only
    exact ruleLoop_nodup _ _ _ _

/-! ### Helper lemmas about event traces -/

theorem wasRecently_eq_of_lookup (m : List (String × ℚ)) (a : String) (t now cd : ℚ)
    (hlk : lookupQ m a = some t) :
    wasRecentlyTriggered m a now cd = decide (now - t < cd) := by
  unfold wasRecentlyTriggered
  rw [hlk]

theorem runEvents_future_gap (rules : String → List Rule) :
    ∀ (events : List (ℚ × String × String)) (st : OrchState) (a : String) (tr : ℚ),
      lookupQ st.triggered a = some tr →
      ∀ e ∈ (runEvents rules st events).2, e.2.1 = a → cooldownDefault ≤ e.1 - tr := by
  intro events
  induction events with
  | nil =>
    intro st a tr _ e he
    simp [runEvents] at he
  | cons ev rest ih =>
    intro st a tr hlk e he hea
    obtain ⟨t, s, c⟩ := ev
    simp only [runEvents] at he
    rcases List.mem_append.mp he with he1 | he2
    · obtain ⟨d, hd, hde⟩ := List.mem_map.mp he1
      have hda : d.1 = a := by rw [← hde] at hea; exact hea
      have hmem : a ∈ (applyRules rules st t s c).2.map Prod.fst := by
        rw [← hda]; exact List.mem_map_of_mem Prod.fst hd
      have hsup := applyRules_mem rules st t s c a hmem
      rw [wasRecently_eq_of_lookup _ _ _ _ _ hlk] at hsup
      have hge : ¬ (t - tr < cooldownDefault) := by
        intro hcon; rw [decide_eq_true hcon] at hsup; simp at hsup
      have het : e.1 = t := by rw [← hde]
      rw [het]
      linarith [not_lt.mp hge]
    · have hlk2 := applyRules_lookup rules st t s c a
      by_cases hc : a ∈ (applyRules rules st t s c).2.map Prod.fst
      · rw [if_pos hc] at hlk2
        have h1 := ih (applyRules rules st t s c).1 a t hlk2 e he2 hea
        have hsup := applyRules_mem rules st t s c a hc
        rw [wasRecently_eq_of_lookup _ _ _ _ _ hlk] at hsup
        have hge : ¬ (t - tr < cooldownDefault) := by
          intro hcon; rw [decide_eq_true hcon] at hsup; simp at hsup
        have hcd : (0 : ℚ) ≤ cooldownDefault := by norm_num [cooldownDefault]
        linarith [not_lt.mp hge]
      · rw [if_neg hc] at hlk2
        rw [hlk] at hlk2
        exact ih (applyRules rules st t s c).1 a tr hlk2 e he2 hea

theorem runEvents_pairwise (rules : String → List Rule) :
    ∀ (events : List (ℚ × String × String)) (st : OrchState),
      ((runEvents rules st events).2).Pairwise
        (fun d e => d.2.1 = e.2.1 → cooldownDefault ≤ e.1 - d.1) := by
  intro events
  induction events with
  | nil => intro st; simp [runEvents]
  | cons ev rest ih =>
    intro st
    obtain ⟨t, s, c⟩ := ev
    simp only [runEvents]
    rw [List.pairwise_append]
    refine ⟨?_, ih _, ?_⟩
    · rw [List.pairwise_map]
      have hp : ((applyRules rules st t s c).2.map Prod.fst).Pairwise Ne :=
        applyRules_nodup rules st t s c
      rw [List.pairwise_map] at hp
      exact hp.imp (fun hne heq => absurd heq hne)
    · intro x hx y hy
      obtain ⟨d, hd, hde⟩ := List.mem_map.mp hx
      intro heq
      have hc : d.1 ∈ (applyRules rules st t s c).2.map Prod.fst :=
        List.mem_map_of_mem Prod.fst hd
      have hlk2 := applyRules_lookup rules st t s c d.1
      rw [if_pos hc] at hlk2
      have hy2 : y.2.1 = d.1 := by rw [← hde] at heq; exact heq.symm
      have := runEvents_future_gap rules rest (applyRules rules st t s c).1 d.1 t hlk2 y hy hy2
      rw [← hde]
      exact this

/-! ### Helper lemmas about the phrase window -/

theorem cleanOld_suffix (now : ℚ) :
    ∀ buf : List (String × ℚ), ∃ k, cleanOld now buf = buf.drop k := by
  intro buf
  induction buf with
  | nil => exact ⟨0, rfl⟩
  | cons e rest ih =>
    by_cases h : now - e.2 > phraseWindow
    · obtain ⟨k, hk⟩ := ih
      exact ⟨k + 1, by simp [cleanOld, h, hk]⟩
    · exact ⟨0, by simp [cleanOld, h]⟩

theorem cleanOld_mem_young (now : ℚ) :
    ∀ buf : List (String × ℚ), buf.Pairwise (fun x y => x.2 ≤ y.2) →
      ∀ e ∈ cleanOld now buf, now - e.2 ≤ phraseWindow := by
  intro buf
  induction buf with
  | nil =>
    intro _ e he
    simp [cleanOld] at he
  | cons x rest ih =>
    intro hp e he
    rw [List.pairwise_cons] at hp
    by_cases h : now - x.2 > phraseWindow
    · simp only [cleanOld, if_pos h] at he
      exact ih hp.2 e he
    · simp only [cleanOld, if_neg h] at he
      rcases List.mem_cons.mp he with h1 | h1
      · rw [h1]
        linarith [not_lt.mp h]
      · have hxe := hp.1 e h1
        have := not_lt.mp h
        linarith

theorem cleanOld_mem_orig (now : ℚ) (buf : List (String × ℚ)) :
    ∀ e ∈ cleanOld now buf, e ∈ buf := by
  obtain ⟨k, hk⟩ := cleanOld_suffix now buf
  rw [hk]
  exact fun e he => List.drop_subset k buf he

/-! ### Claim theorems -/

/-- C2, counterexample: a send issued while no downstream connection exists
(`PDF_SERVER_CONNECTION is None`) makes zero connect attempts — not the
one attempt the claim asserts — and reports no failure. -/
theorem claim2_counterexample :
    (sendToPdfServer none).connectAttempts = 0
    ∧ ¬ (sendToPdfServer none).connectAttempts = 1
    ∧ (sendToPdfServer none).errorLogged = false := by
  decide

/-- C2 (amended): a downstream send issued while the connection state is
Disconnected makes no connect attempt at all; the payload is silently
dropped (not sent, no failure logged) and the state remains Disconnected. -/
theorem claim2_amended :
    sendToPdfServer none = ⟨none, false, 0, false⟩ := rfl

/-- C6: over any sequence of events processed in order from any initial
state, any two dispatch tasks created for the same action are at least
`cooldownDefault` (2 s) apart — the cooldown mark is written synchronously
at match time, before the dispatch task is created and independently of
any downstream send, so a slow or failed send cannot allow rapid-fire
duplicates. -/
theorem claim6_no_rapid_fire (rules : String → List Rule) (st0 : OrchState)
    (events : List (ℚ × String × String)) :
    ((runEvents rules st0 events).2).Pairwise
      (fun d e => d.2.1 = e.2.1 → cooldownDefault ≤ e.1 - d.1) :=
  runEvents_pairwise rules events st0

/-- C8: a malformed inbound message (invalid JSON, or an object missing
`source` or `content`) is rejected by `parse_message`; the orchestrator
state is unchanged, no dispatch is created, and the receive loop continues
with the remaining messages exactly as if the malformed one had not
arrived (the connection stays open). -/
theorem claim8_malformed (rules : String → List Rule) (st : OrchState) (now : ℚ)
    (m : InMsg) (rest : List (ℚ × InMsg))
    (h : m = InMsg.badJson ∨ ∃ os oc, m = InMsg.obj os oc ∧ (os = none ∨ oc = none)) :
    parseMessage m = none
    ∧ handleMessage rules st now m = (st, [])
    ∧ handleRun rules st ((now, m) :: rest) = handleRun rules st rest := by
  have hp : parseMessage m = none := by
    rcases h with h | ⟨os, oc, hm, hoc⟩
    · rw [h]
      rfl
    · rw [hm]
      rcases hoc with h1 | h1
      · rw [h1]
        cases oc <;> rfl
      · rw [h1]
        cases os <;> rfl
  refine ⟨hp, ?_, ?_⟩
  · unfold handleMessage
    rw [hp]
  · simp only [handleRun, handleMessage, hp]
    simp
  

/-- C8, witness: a bad-JSON message from the empty initial state is
rejected with no state change, no dispatch, and an unchanged remaining
run. -/
theorem claim8_witness :
    parseMessage InMsg.badJson = none
    ∧ handleMessage initializeRules ⟨[], []⟩ 0 InMsg.badJson = (⟨[], []⟩, [])
    ∧ handleRun initializeRules ⟨[], []⟩ [(0, InMsg.badJson)]
        = handleRun initializeRules ⟨[], []⟩ [] :=
  claim8_malformed initializeRules ⟨[], []⟩ 0 InMsg.badJson [] (Or.inl rfl)

/-- C9: the phrase window keeps at most 10 entries, evicting from the
front (oldest first, regardless of age) when the cap is exceeded; feeding
11 words in rapid succession (one event, all within the time window)
leaves exactly the 10 most recent words in the buffer and a recent phrase
made of those 10 words. -/
theorem claim9_capacity (buf : List (String × ℚ)) (e : String × ℚ) :
    (pushCapped buf e).length ≤ 10
    ∧ (∃ k, pushCapped buf e = (buf ++ [e]).drop k)
    ∧ (applyRules initializeRules ⟨[], []⟩ 0 "audio_stt" "a b c d e f g h i j k").1.buffer
        = [("b", 0), ("c", 0), ("d", 0), ("e", 0), ("f", 0),
           ("g", 0), ("h", 0), ("i", 0), ("j", 0), ("k", 0)]
    ∧ (getRecentPhrase (applyRules initializeRules ⟨[], []⟩ 0 "audio_stt"
          "a b c d e f g h i j k").1.buffer 0).2
        = "b c d e f g h i j k" := by
  refine ⟨?_, ⟨(buf ++ [e]).length - 10, rfl⟩, ?_, ?_⟩
  · rw [pushCapped, List.length_drop]
    omega
  · norm_num +decide [applyRules, ingest, getRecentPhrase, cleanOld, pushCapped, ruleLoop,
      wasRecentlyTriggered, lookupQ, markTriggered, phraseWindow, cooldownDefault,
      pySplit, wordsAux, pyStrip, lowerStr, lowerChar, isSpaceChar, strIn, hasSubstrL,
      isPrefixOfL, joinSpace, initializeRules]
  · norm_num +decide [applyRules, ingest, getRecentPhrase, cleanOld, pushCapped, ruleLoop,
      wasRecentlyTriggered, lookupQ, markTriggered, phraseWindow, cooldownDefault,
      pySplit, wordsAux, pyStrip, lowerStr, lowerChar, isSpaceChar, strIn, hasSubstrL,
      isPrefixOfL, joinSpace, initializeRules]

/-- C3: an action is cooldown-suppressed iff it is present in the cooldown
registry and `now` minus its recorded timestamp is strictly below
`cooldownDefault` (2 s); and in the reference scenario, matching "next"
at times 0, 1 and 3 dispatches exactly at 0 (fresh) and 3 (cooldown
elapsed), with the match at 1 suppressed. -/
theorem claim3_cooldown (m : List (String × ℚ)) (a : String) (now : ℚ) :
    (wasRecentlyTriggered m a now cooldownDefault = true
       ↔ ∃ t, lookupQ m a = some t ∧ now - t < cooldownDefault)
    ∧ (runEvents initializeRules ⟨[], []⟩
         [(0, "audio_stt", "next"), (1, "audio_stt", "next"), (3, "audio_stt", "next")]).2
        = [(0, "NEXT_SLIDE", []), (3, "NEXT_SLIDE", [])] := by
  constructor
  · rcases hlk : lookupQ m a with _ | t
    · simp [wasRecentlyTriggered, hlk]
    · simp [wasRecentlyTriggered, hlk]
  · norm_num +decide [runEvents, applyRules, ingest, getRecentPhrase, cleanOld, pushCapped,
      ruleLoop, wasRecentlyTriggered, lookupQ, markTriggered, phraseWindow, cooldownDefault,
      pySplit, wordsAux, pyStrip, lowerStr, lowerChar, isSpaceChar, strIn, hasSubstrL,
      isPrefixOfL, joinSpace, initializeRules]

/-- C7: a matched, dispatched action is handed to `send_to_pdf_server` iff
it is one of the four slide actions; a vision event "cardboard" matches
the ZOOM_ON_OBJECT rule yet its action produces no downstream send. -/
theorem claim7_downstream_filter (action : String) (params : List (String × String)) :
    ((delegateAction action params).isSome = true
       ↔ (action = "OPEN_PRESENTATION" ∨ action = "NEXT_SLIDE"
           ∨ action = "PREVIOUS_SLIDE" ∨ action = "GO_TO_SLIDE"))
    ∧ (applyRules initializeRules ⟨[], []⟩ 0 "vision_vlm" "cardboard").2
        = [("ZOOM_ON_OBJECT", [("target", "cardboard")])]
    ∧ delegateAction "ZOOM_ON_OBJECT" [("target", "cardboard")] = none := by
  refine ⟨?_, ?_, by decide⟩
  · simp [delegateAction, slideActions, List.contains]
  · decide

/-- C1, counterexample: the rule loop has no early exit after a dispatch,
so a single audio event whose accumulated phrase contains two different
triggers ("open presentation next") creates two dispatch tasks — the
claim's "at most one action is dispatched per incoming event" is false. -/
theorem claim1_counterexample :
    ¬ ((applyRules initializeRules ⟨[], []⟩ 0 "audio_stt" "open presentation next").2.length ≤ 1) := by
  have h : (applyRules initializeRules ⟨[], []⟩ 0 "audio_stt" "open presentation next").2
      = [("OPEN_PRESENTATION", []), ("NEXT_SLIDE", [])] := by
    norm_num +decide [applyRules, ingest, getRecentPhrase, cleanOld, pushCapped, ruleLoop,
      wasRecentlyTriggered, lookupQ, markTriggered, phraseWindow, cooldownDefault,
      pySplit, wordsAux, pyStrip, lowerStr, lowerChar, isSpaceChar, strIn, hasSubstrL,
      isPrefixOfL, joinSpace, initializeRules]
  rw [h]
  norm_num

/-- C1 (amended): for every event with a nonempty source and nonempty
stripped content, the rules for the source are evaluated in table order; a
rule is a candidate iff its lowercased trigger is a contiguous substring
of the recent phrase, and an action is dispatched iff some candidate rule
carries it and it was not cooldown-suppressed at the start of the event —
every such candidate fires (evaluation does not stop at the first
dispatch, so several different actions may fire for one event), while each
individual action fires at most once per event. -/
theorem claim1_amended (rules : String → List Rule) (st : OrchState) (now : ℚ)
    (source rawContent : String) (a : String)
    (h1 : source ≠ "") (h2 : pyStrip rawContent ≠ "") :
    (a ∈ (applyRules rules st now source rawContent).2.map Prod.fst
       ↔ ((∃ r ∈ rules source, r.action = a
             ∧ strIn (lowerStr r.trigger) (ingest st now source (pyStrip rawContent)).2 = true)
           ∧ wasRecentlyTriggered st.triggered a now cooldownDefault = false))
    ∧ ((applyRules rules st now source rawContent).2.map Prod.fst).Nodup := by
  have h : ¬ (source = "" ∨ pyStrip rawContent = "") := by
    rintro (hc | hc)
    · exact h1 hc
    · exact h2 hc
  constructor
  · rw [applyRules_nonempty rules st now source rawContent h]
    dsimp only
    rw [ruleLoop_mem, ingest_triggered]
  · exact applyRules_nodup rules st now source rawContent

/-- C1, witness: the amended statement instantiated at the two-trigger
event; NEXT_SLIDE is among the dispatched actions and the dispatched
action list is duplicate-free. -/
theorem claim1_witness :
    ("NEXT_SLIDE" ∈ (applyRules initializeRules ⟨[], []⟩ 0 "audio_stt"
          "open presentation next").2.map Prod.fst
       ↔ ((∃ r ∈ initializeRules "audio_stt", r.action = "NEXT_SLIDE"
             ∧ strIn (lowerStr r.trigger)
                 (ingest ⟨[], []⟩ 0 "audio_stt" (pyStrip "open presentation next")).2 = true)
           ∧ wasRecentlyTriggered ([] : List (String × ℚ)) "NEXT_SLIDE" 0 cooldownDefault = false))
    ∧ ((applyRules initializeRules ⟨[], []⟩ 0 "audio_stt"
          "open presentation next").2.map Prod.fst).Nodup :=
  claim1_amended initializeRules ⟨[], []⟩ 0 "audio_stt" "open presentation next" "NEXT_SLIDE"
    (by decide) (by decide)

/-- C5: whenever the recent phrase is read from an age-sorted window whose
entries all arrived no later than `now`, every surviving entry is within
`phraseWindow` (3 s) of `now`, eviction removed a prefix (oldest first),
and no two surviving entries are more than 3 s apart — so two words that
arrived more than 3 s apart never appear in the same recent phrase. -/
theorem claim5_window_invariant (buf : List (String × ℚ)) (now : ℚ) (e1 e2 : String × ℚ)
    (hsort : buf.Pairwise (fun x y => x.2 ≤ y.2))
    (hpast : ∀ e ∈ buf, e.2 ≤ now)
    (h1 : e1 ∈ cleanOld now buf) (h2 : e2 ∈ cleanOld now buf) :
    now - e1.2 ≤ phraseWindow
    ∧ e2.2 - e1.2 ≤ phraseWindow
    ∧ ∃ k, cleanOld now buf = buf.drop k := by
  refine ⟨cleanOld_mem_young now buf hsort e1 h1, ?_, cleanOld_suffix now buf⟩
  have hy := cleanOld_mem_young now buf hsort e1 h1
  have hp := hpast e2 (cleanOld_mem_orig now buf e2 h2)
  linarith

/-- C5, witness: with "open" at time 0 and "presentation" at time 4 (more
than 3 s later), reading at time 4 keeps only the later word, which is
within the window. -/
theorem claim5_witness :
    (4 : ℚ) - ("presentation", (4 : ℚ)).2 ≤ phraseWindow
    ∧ ("presentation", (4 : ℚ)).2 - ("presentation", (4 : ℚ)).2 ≤ phraseWindow
    ∧ ∃ k, cleanOld 4 [("open", 0), ("presentation", 4)]
        = [("open", (0 : ℚ)), ("presentation", 4)].drop k :=
  claim5_window_invariant [("open", 0), ("presentation", 4)] 4
    ("presentation", 4) ("presentation", 4)
    (by norm_num)
    (by norm_num)
    (by norm_num [cleanOld, phraseWindow])
    (by norm_num [cleanOld, phraseWindow])

/-- C4: starting from an empty phrase window and any registry that does
not suppress OPEN_PRESENTATION, the word events "open" (time 0) and
"presentation" (time `t2`, within 3 s) for source "audio_stt" leave the
recent phrase equal to "open presentation" and dispatch exactly the
OPEN_PRESENTATION rule at the second event. -/
theorem claim4_open_presentation (t2 : ℚ) (reg : List (String × ℚ))
    (_h1 : 0 ≤ t2) (h2 : t2 ≤ 3)
    (h3 : wasRecentlyTriggered reg "OPEN_PRESENTATION" t2 cooldownDefault = false) :
    (runEvents initializeRules ⟨[], reg⟩
        [(0, "audio_stt", "open"), (t2, "audio_stt", "presentation")]).2
      = [(t2, "OPEN_PRESENTATION", [])]
    ∧ (getRecentPhrase (runEvents initializeRules ⟨[], reg⟩
        [(0, "audio_stt", "open"), (t2, "audio_stt", "presentation")]).1.buffer t2).2
      = "open presentation" := by
  have hb : ¬ ((3 : ℚ) < t2) := not_lt.mpr h2
  have step1 : applyRules initializeRules ⟨[], reg⟩ 0 "audio_stt" "open"
      = (⟨[("open", 0)], reg⟩, []) := by
    norm_num +decide [applyRules, ingest, getRecentPhrase, cleanOld, pushCapped, ruleLoop,
      phraseWindow, pySplit, wordsAux, pyStrip, lowerStr, lowerChar, isSpaceChar,
      strIn, hasSubstrL, isPrefixOfL, joinSpace, initializeRules]
  have step2 : applyRules initializeRules ⟨[("open", 0)], reg⟩ t2 "audio_stt" "presentation"
      = (⟨[("open", 0), ("presentation", t2)], ("OPEN_PRESENTATION", t2) :: reg⟩,
         [("OPEN_PRESENTATION", [])]) := by
    norm_num +decide [applyRules, ingest, getRecentPhrase, cleanOld, pushCapped, ruleLoop,
      markTriggered, phraseWindow, pySplit, wordsAux, pyStrip, lowerStr, lowerChar,
      isSpaceChar, strIn, hasSubstrL, isPrefixOfL, joinSpace, initializeRules, hb, h3]
  constructor
  · simp only [runEvents, step1, step2]
    simp
  · simp only [runEvents, step1, step2]
    norm_num +decide [getRecentPhrase, cleanOld, phraseWindow, joinSpace, lowerStr,
      lowerChar, hb]

/-- C4, witness: the scenario at `t2 = 2` from the empty registry. -/
theorem claim4_witness :
    (runEvents initializeRules ⟨[], []⟩
        [(0, "audio_stt", "open"), (2, "audio_stt", "presentation")]).2
      = [((2 : ℚ), "OPEN_PRESENTATION", ([] : List (String × String)))]
    ∧ (getRecentPhrase (runEvents initializeRules ⟨[], []⟩
        [(0, "audio_stt", "open"), (2, "audio_stt", "presentation")]).1.buffer 2).2
      = "open presentation" :=
  claim4_open_presentation 2 [] (by norm_num) (by norm_num) rfl

/-- C10: a cooldown-suppressed match does not overwrite the registry — if
an action is suppressed at the start of an event, its registry entry after
the event is exactly what it was before — and in the reference scenario
("next" at times 0, 1, 2) the suppressed match at time 1 does not extend
the cooldown: the action fires again exactly `cooldownDefault` (2 s) after
its last dispatched trigger. -/
theorem claim10_suppressed_frame (rules : String → List Rule) (st : OrchState) (now : ℚ)
    (source rawContent a : String)
    (h : wasRecentlyTriggered st.triggered a now cooldownDefault = true) :
    lookupQ (applyRules rules st now source rawContent).1.triggered a = lookupQ st.triggered a
    ∧ (runEvents initializeRules ⟨[], []⟩
         [(0, "audio_stt", "next"), (1, "audio_stt", "next"), (2, "audio_stt", "next")]).2
        = [(0, "NEXT_SLIDE", []), (2, "NEXT_SLIDE", [])] := by
  constructor
  · have hnc : a ∉ (applyRules rules st now source rawContent).2.map Prod.fst := by
      intro hc
      have hfalse := applyRules_mem rules st now source rawContent a hc
      rw [h] at hfalse
      simp at hfalse
    rw [applyRules_lookup, if_neg hnc]
  · norm_num +decide [runEvents, applyRules, ingest, getRecentPhrase, cleanOld, pushCapped,
      ruleLoop, wasRecentlyTriggered, lookupQ, markTriggered, phraseWindow, cooldownDefault,
      pySplit, wordsAux, pyStrip, lowerStr, lowerChar, isSpaceChar, strIn, hasSubstrL,
      isPrefixOfL, joinSpace, initializeRules]

/-- C10, witness: with NEXT_SLIDE last dispatched at time 0, a suppressed
match at time 1 leaves the registry entry at 0. -/
theorem claim10_witness :
    lookupQ (applyRules initializeRules ⟨[], [("NEXT_SLIDE", 0)]⟩ 1 "audio_stt"
        "next").1.triggered "NEXT_SLIDE"
      = lookupQ [("NEXT_SLIDE", 0)] "NEXT_SLIDE"
    ∧ (runEvents initializeRules ⟨[], []⟩
         [(0, "audio_stt", "next"), (1, "audio_stt", "next"), (2, "audio_stt", "next")]).2
        = [(0, "NEXT_SLIDE", []), (2, "NEXT_SLIDE", [])] :=
  claim10_suppressed_frame initializeRules ⟨[], [("NEXT_SLIDE", 0)]⟩ 1 "audio_stt" "next"
    "NEXT_SLIDE"
    (by norm_num +decide [wasRecentlyTriggered, lookupQ, cooldownDefault])
